import Mathlib

/-!
Verification of the notification scheduling engine of a Discord reminder
bot (`src/bot.py`).  The Python class `NotificationBot` keeps

  * `notifications` : a dict mapping a channel key (the channel id rendered
    as a string) to an ordered list of notification rule records, and
  * `sent_notifications` : an in-memory set of ledger keys, each the rule
    id followed by an underscore and a calendar date, guarding
    non-repeating rules, and
  * the side effect of `save_notifications`, modelled here by a counter of
    snapshot writes.

The dict is embedded as an insertion-ordered association list, matching
Python dict semantics (updating an existing key keeps its position, a new
key is appended at the end).  Each method of the class becomes a pure
function from the bot state to a result paired with the successor state.
-/

namespace Bot

/-- A notification rule record, the dict built in `add_notification`. -/
structure Notification where
  id : String
  time : String
  message : String
  weekdays : List Nat
  «repeat» : Bool
  enabled : Bool
  created_at : String
  deriving Repr, DecidableEq

/-- The facets of the current civil timestamp that
`should_send_notification` reads: the weekday index, the time of day
rendered as HH:MM, and the calendar date rendered as YYYY-MM-DD. -/
structure Timestamp where
  weekday : Nat
  hhmm : String
  date : String
  deriving Repr, DecidableEq

/-- Lookup in a Python-style dict embedded as an association list. -/
def dictFind {α : Type} (d : List (String × α)) (k : String) : Option α :=
  match d with
  | [] => none
  | (k', v) :: rest => if k' = k then some v else dictFind rest k

/-- Assignment `d[k] = v` on a Python-style dict: an existing key keeps its
position and gets the new value, a missing key is appended at the end. -/
def dictSet {α : Type} (d : List (String × α)) (k : String) (v : α) :
    List (String × α) :=
  match d with
  | [] => [(k, v)]
  | (k', v') :: rest =>
      if k' = k then (k', v) :: rest else (k', v') :: dictSet rest k v

/-- The whole mutable state of the Python `NotificationBot` instance.
`saves` counts the calls to `save_notifications` (the snapshot writes). -/
structure NotificationBot where
  notifications : List (String × List Notification)
  sent_notifications : List String
  saves : Nat
  deriving Repr, DecidableEq

/-- Model of `save_notifications`: the source writes the snapshot file;
the model only bumps the write counter. -/
def save_notifications (b : NotificationBot) : NotificationBot :=
  { b with saves := b.saves + 1 }

/-- The dict key used for a channel: the channel id rendered as a string. -/
def channelKey (channel_id : Nat) : String :=
  toString channel_id

/-- The fired-once ledger key: the rule id, an underscore, and the
calendar date. -/
def ledgerKey (id date : String) : String :=
  id ++ "_" ++ date

/-- Model of `NotificationBot.add_notification`.  The fresh id (a uuid
prefix in the source) and the creation timestamp are nondeterministic
inputs of the method and are passed as arguments. -/
def add_notification (b : NotificationBot) (channel_id : Nat)
    (time_str message : String) (weekdays : Option (List Nat))
    (repeatArg : Bool) (fresh_id created_at : String) :
    String × NotificationBot :=
  let channel_key := channelKey channel_id
  let notifs :=
    match dictFind b.notifications channel_key with
    | none => dictSet b.notifications channel_key []
    | some _ => b.notifications
  let wds :=
    match weekdays with
    | none => List.range 7
    | some w => w
  let notification : Notification :=
    { id := fresh_id, time := time_str, message := message,
      weekdays := wds, «repeat» := repeatArg, enabled := true,
      created_at := created_at }
  let current := (dictFind notifs channel_key).getD []
  let b' := { b with
    notifications := dictSet notifs channel_key (current ++ [notification]) }
  (fresh_id, save_notifications b')

/-- The loop body of `remove_notification`: find the first element whose
`id` matches, pop it, and report it; otherwise leave the list unchanged. -/
def removeFirst (l : List Notification) (nid : String) :
    Option Notification × List Notification :=
  match l with
  | [] => (none, [])
  | n :: rest =>
      if n.id = nid then (some n, rest)
      else
        let r := removeFirst rest nid
        (r.1, n :: r.2)

/-- Model of `NotificationBot.remove_notification`: linear search by id
in the list of the channel; on a match pop it, persist and return it;
otherwise return none and leave everything untouched. -/
def remove_notification (b : NotificationBot) (channel_id : Nat)
    (notification_id : String) : Option Notification × NotificationBot :=
  let channel_key := channelKey channel_id
  match dictFind b.notifications channel_key with
  | none => (none, b)
  | some l =>
      match removeFirst l notification_id with
      | (none, _) => (none, b)
      | (some removed, rest) =>
          (some removed,
            save_notifications
              { b with notifications := dictSet b.notifications channel_key rest })

/-- The loop body of `toggle_notification`: flip `enabled` of the first
element whose `id` matches and report the new flag. -/
def toggleFirst (l : List Notification) (nid : String) :
    Option Bool × List Notification :=
  match l with
  | [] => (none, [])
  | n :: rest =>
      if n.id = nid then
        (some (!n.enabled), { n with enabled := !n.enabled } :: rest)
      else
        let r := toggleFirst rest nid
        (r.1, n :: r.2)

/-- Model of `NotificationBot.toggle_notification`: flip `enabled` of the
first rule with the given id, persist, and return the new flag; none when
the channel or the id is unknown. -/
def toggle_notification (b : NotificationBot) (channel_id : Nat)
    (notification_id : String) : Option Bool × NotificationBot :=
  let channel_key := channelKey channel_id
  match dictFind b.notifications channel_key with
  | none => (none, b)
  | some l =>
      match toggleFirst l notification_id with
      | (none, _) => (none, b)
      | (some state, l') =>
          (some state,
            save_notifications
              { b with notifications := dictSet b.notifications channel_key l' })

/-- Model of `NotificationBot.get_notifications`: the list of the
channel, or the empty list when the channel is unknown. -/
def get_notifications (b : NotificationBot) (channel_id : Nat) :
    List Notification :=
  (dictFind b.notifications (channelKey channel_id)).getD []

/-- Model of `NotificationBot.should_send_notification`.  In the source
`now` is read from the wall clock inside the method; the model receives
it as an argument.  The checks run in the order of the source: `enabled`,
minute-exact time equality, weekday membership, and for a non-repeating
rule the fired-once ledger, which the same call updates. -/
def should_send_notification (b : NotificationBot)
    (notification : Notification) (now : Timestamp) :
    Bool × NotificationBot :=
  if !notification.enabled then (false, b)
  else if notification.time ≠ now.hhmm then (false, b)
  else if !(notification.weekdays.contains now.weekday) then (false, b)
  else if !notification.«repeat» then
    let key := ledgerKey notification.id now.date
    if b.sent_notifications.contains key then (false, b)
    else (true, { b with sent_notifications := key :: b.sent_notifications })
  else (true, b)

/-! Helper lemmas about the dict embedding and the list loops. -/

theorem dictFind_dictSet_self {α : Type} (d : List (String × α)) (k : String)
    (v : α) : dictFind (dictSet d k v) k = some v := by
  induction d with
  | nil => simp [dictSet, dictFind]
  | cons p rest ih =>
      obtain ⟨k', v'⟩ := p
      by_cases h : k' = k <;> simp [dictSet, dictFind, h, ih]

theorem dictFind_dictSet_ne {α : Type} (d : List (String × α)) (k k' : String)
    (v : α) (h : k' ≠ k) : dictFind (dictSet d k v) k' = dictFind d k' := by
  induction d with
  | nil =>
      have hne : ¬k = k' := fun hh => h hh.symm
      simp [dictSet, dictFind, hne]
  | cons p rest ih =>
      obtain ⟨k₀, v₀⟩ := p
      by_cases h₀ : k₀ = k
      · subst h₀
        have hne : ¬k₀ = k' := fun hh => h hh.symm
        simp [dictSet, dictFind, hne]
      · simp [dictSet, dictFind, h₀, ih]

theorem dictSet_self {α : Type} (d : List (String × α)) (k : String) (v : α)
    (h : dictFind d k = some v) : dictSet d k v = d := by
  induction d with
  | nil => simp [dictFind] at h
  | cons p rest ih =>
      obtain ⟨k₀, v₀⟩ := p
      by_cases h₀ : k₀ = k
      · subst h₀
        simp [dictFind] at h
        simp [dictSet, h]
      · simp [dictFind, h₀] at h
        simp [dictSet, h₀, ih h]

theorem removeFirst_not_mem (l : List Notification) (nid : String)
    (h : nid ∉ l.map Notification.id) : removeFirst l nid = (none, l) := by
  induction l with
  | nil => simp [removeFirst]
  | cons n rest ih =>
      simp only [List.map_cons, List.mem_cons, not_or] at h
      have hne : ¬n.id = nid := fun hh => h.1 hh.symm
      simp [removeFirst, hne, ih h.2]

theorem removeFirst_first_match (l1 : List Notification) (r : Notification)
    (l2 : List Notification) (nid : String) (hr : r.id = nid)
    (h : nid ∉ l1.map Notification.id) :
    removeFirst (l1 ++ r :: l2) nid = (some r, l1 ++ l2) := by
  induction l1 with
  | nil => simp [removeFirst, hr]
  | cons n rest ih =>
      simp only [List.map_cons, List.mem_cons, not_or] at h
      have hne : ¬n.id = nid := fun hh => h.1 hh.symm
      simp [removeFirst, hne, ih h.2]

theorem toggleFirst_not_mem (l : List Notification) (nid : String)
    (h : nid ∉ l.map Notification.id) : toggleFirst l nid = (none, l) := by
  induction l with
  | nil => simp [toggleFirst]
  | cons n rest ih =>
      simp only [List.map_cons, List.mem_cons, not_or] at h
      have hne : ¬n.id = nid := fun hh => h.1 hh.symm
      simp [toggleFirst, hne, ih h.2]

theorem toggleFirst_first_match (l1 : List Notification) (r : Notification)
    (l2 : List Notification) (nid : String) (hr : r.id = nid)
    (h : nid ∉ l1.map Notification.id) :
    toggleFirst (l1 ++ r :: l2) nid =
      (some (!r.enabled), l1 ++ { r with enabled := !r.enabled } :: l2) := by
  induction l1 with
  | nil => simp [toggleFirst, hr]
  | cons n rest ih =>
      simp only [List.map_cons, List.mem_cons, not_or] at h
      have hne : ¬n.id = nid := fun hh => h.1 hh.symm
      simp [toggleFirst, hne, ih h.2]

/-! The claims. -/

/-- C1: the firing predicate follows the decision policy in order — a
disabled rule never fires; then a minute-exact time mismatch blocks; then
a weekday mismatch blocks; then a non-repeating rule is blocked when its
ledger key for the current date is already recorded, and otherwise records
the key and fires; a repeating rule passing all checks fires with no
ledger effect. -/
theorem should_fire_decision_policy (b : NotificationBot) (n : Notification)
    (now : Timestamp) :
    (n.enabled = false → should_send_notification b n now = (false, b)) ∧
    (n.enabled = true → n.time ≠ now.hhmm →
      should_send_notification b n now = (false, b)) ∧
    (n.enabled = true → n.time = now.hhmm → now.weekday ∉ n.weekdays →
      should_send_notification b n now = (false, b)) ∧
    (n.enabled = true → n.time = now.hhmm → now.weekday ∈ n.weekdays →
      n.«repeat» = false → ledgerKey n.id now.date ∈ b.sent_notifications →
      should_send_notification b n now = (false, b)) ∧
    (n.enabled = true → n.time = now.hhmm → now.weekday ∈ n.weekdays →
      n.«repeat» = false → ledgerKey n.id now.date ∉ b.sent_notifications →
      should_send_notification b n now =
        (true, { b with sent_notifications :=
                  ledgerKey n.id now.date :: b.sent_notifications })) ∧
    (n.enabled = true → n.time = now.hhmm → now.weekday ∈ n.weekdays →
      n.«repeat» = true → should_send_notification b n now = (true, b)) := by
  refine ⟨?_, ?_, ?_, ?_, ?_, ?_⟩ <;> intros <;>
    simp_all [should_send_notification, ledgerKey]

/-- Concrete sample state: a bot with one channel (id 1) holding one
repeating rule and one non-repeating rule, an empty ledger, and no
snapshot writes yet. -/
def ruleRep : Notification :=
  { id := "aaaa1111", time := "09:00", message := "standup",
    weekdays := [0, 1, 2, 3, 4, 5, 6], «repeat» := true, enabled := true,
    created_at := "2025-01-01T00:00:00+09:00" }

/-- Concrete sample non-repeating rule: fires Tuesdays at 09:00. -/
def ruleOnce : Notification :=
  { id := "bbbb2222", time := "09:00", message := "standup",
    weekdays := [1], «repeat» := false, enabled := true,
    created_at := "2025-01-01T00:00:00+09:00" }

/-- Concrete sample bot state holding `ruleRep` and `ruleOnce`. -/
def bot0 : NotificationBot :=
  { notifications := [("1", [ruleRep, ruleOnce])],
    sent_notifications := [], saves := 0 }

/-- Sample timestamp: Tuesday 2025-01-07 at 09:00. -/
def tsTue1 : Timestamp :=
  { weekday := 1, hhmm := "09:00", date := "2025-01-07" }

/-- Sample timestamp: the following Tuesday, 2025-01-14, at 09:00. -/
def tsTue2 : Timestamp :=
  { weekday := 1, hhmm := "09:00", date := "2025-01-14" }

/-- Witness for C1: the ledger-recording branch evaluated on the sample
non-repeating rule at a matching instant. -/
theorem should_fire_decision_policy_witness :
    should_send_notification bot0 ruleOnce tsTue1 =
      (true, { bot0 with sent_notifications :=
                [ledgerKey "bbbb2222" "2025-01-07"] }) :=
  (should_fire_decision_policy bot0 ruleOnce tsTue1).2.2.2.2.1
    rfl rfl (by decide) rfl (by simp [bot0])

/-- Ledger keys of the same rule on two distinct calendar dates differ. -/
theorem ledgerKey_ne_of_date_ne (id d1 d2 : String) (h : d1 ≠ d2) :
    ledgerKey id d1 ≠ ledgerKey id d2 := by
  intro hk
  apply h
  have h2 := congrArg String.data hk
  simp only [ledgerKey, String.data_append, List.append_assoc] at h2
  exact String.ext (List.append_cancel_left (List.append_cancel_left h2))

/-- C3: for an enabled non-repeating rule at a matching instant whose
ledger key is not yet recorded, two successive calls with the same
timestamp return true then false — the first call records the key of
rule id and date, and the second call finds it. -/
theorem nonrepeat_true_then_false (b : NotificationBot) (n : Notification)
    (now : Timestamp) (hen : n.enabled = true) (hrep : n.«repeat» = false)
    (ht : n.time = now.hhmm) (hw : now.weekday ∈ n.weekdays)
    (hfresh : ledgerKey n.id now.date ∉ b.sent_notifications) :
    (should_send_notification b n now).1 = true ∧
    (should_send_notification
      (should_send_notification b n now).2 n now).1 = false := by
  have hfire : should_send_notification b n now =
      (true, { b with sent_notifications :=
                ledgerKey n.id now.date :: b.sent_notifications }) := by
    simp_all [should_send_notification, ledgerKey]
  refine ⟨by rw [hfire], ?_⟩
  rw [hfire]
  simp_all [should_send_notification, ledgerKey]

/-- Witness for C3 on the sample non-repeating Tuesday rule. -/
theorem nonrepeat_true_then_false_witness :
    (should_send_notification bot0 ruleOnce tsTue1).1 = true ∧
    (should_send_notification
      (should_send_notification bot0 ruleOnce tsTue1).2 ruleOnce tsTue1).1 =
      false :=
  nonrepeat_true_then_false bot0 ruleOnce tsTue1 rfl rfl rfl (by decide)
    (by simp [bot0])

/-- C7: an enabled repeating rule at a matching instant fires and leaves
the state — the ledger included — untouched, so a second call with the
same timestamp fires again. -/
theorem repeating_rule_fires_every_time (b : NotificationBot)
    (n : Notification) (now : Timestamp) (hen : n.enabled = true)
    (hrep : n.«repeat» = true) (ht : n.time = now.hhmm)
    (hw : now.weekday ∈ n.weekdays) :
    should_send_notification b n now = (true, b) ∧
    (should_send_notification
      (should_send_notification b n now).2 n now).1 = true := by
  have hfire : should_send_notification b n now = (true, b) := by
    simp_all [should_send_notification]
  exact ⟨hfire, by rw [hfire]; rw [hfire]⟩

/-- Witness for C7 on the sample repeating rule. -/
theorem repeating_rule_fires_every_time_witness :
    should_send_notification bot0 ruleRep tsTue1 = (true, bot0) ∧
    (should_send_notification
      (should_send_notification bot0 ruleRep tsTue1).2 ruleRep tsTue1).1 =
      true :=
  repeating_rule_fires_every_time bot0 ruleRep tsTue1 rfl rfl rfl (by decide)

/-- C8: a rule whose weekday list is empty never fires and never touches
the state, whatever its other fields and whatever the timestamp — the
weekday membership check cannot succeed. -/
theorem empty_weekdays_never_fires (b : NotificationBot) (n : Notification)
    (now : Timestamp) (h : n.weekdays = []) :
    should_send_notification b n now = (false, b) := by
  unfold should_send_notification
  split
  · rfl
  · split
    · rfl
    · simp [h]

/-- Sample rule with an empty weekday list (obtainable through add with
an explicitly empty list). -/
def ruleNoDays : Notification :=
  { id := "dddd4444", time := "09:00", message := "ghost",
    weekdays := [], «repeat» := true, enabled := true,
    created_at := "2025-01-01T00:00:00+09:00" }

/-- Witness for C8: the empty-weekdays rule stays silent even at its
exact time of day. -/
theorem empty_weekdays_never_fires_witness :
    should_send_notification bot0 ruleNoDays tsTue1 = (false, bot0) :=
  empty_weekdays_never_fires bot0 ruleNoDays tsTue1 rfl

/-- C2 counterexample: the sample non-repeating Tuesday rule fires at
09:00 on Tuesday 2025-01-07, and fires AGAIN at 09:00 the following
Tuesday 2025-01-14 — the ledger key carries the date, so the guard does
not extend to later matching dates. -/
theorem nonrepeat_fires_again_next_matching_date :
    (should_send_notification bot0 ruleOnce tsTue1).1 = true ∧
    (should_send_notification
      (should_send_notification bot0 ruleOnce tsTue1).2 ruleOnce tsTue2).1 =
      true := by
  decide

/-- C2 amended: after an enabled non-repeating rule has fired once, calls
at the same matching timestamp on the SAME calendar date return false,
but at a matching timestamp on a DIFFERENT date whose key is unrecorded
the rule fires again — once per matching date, not once ever. -/
theorem nonrepeat_once_per_date (b : NotificationBot) (n : Notification)
    (t1 t2 : Timestamp) (hen : n.enabled = true) (hrep : n.«repeat» = false)
    (ht1 : n.time = t1.hhmm) (hw1 : t1.weekday ∈ n.weekdays)
    (ht2 : n.time = t2.hhmm) (hw2 : t2.weekday ∈ n.weekdays)
    (hfresh1 : ledgerKey n.id t1.date ∉ b.sent_notifications)
    (hdate : t1.date ≠ t2.date)
    (hfresh2 : ledgerKey n.id t2.date ∉ b.sent_notifications) :
    (should_send_notification b n t1).1 = true ∧
    (should_send_notification
      (should_send_notification b n t1).2 n t1).1 = false ∧
    (should_send_notification
      (should_send_notification b n t1).2 n t2).1 = true := by
  have hfire : should_send_notification b n t1 =
      (true, { b with sent_notifications :=
                ledgerKey n.id t1.date :: b.sent_notifications }) := by
    simp_all [should_send_notification, ledgerKey]
  refine ⟨by rw [hfire], by rw [hfire]; simp_all [should_send_notification, ledgerKey], ?_⟩
  rw [hfire]
  have hkne : ledgerKey n.id t2.date ≠ ledgerKey n.id t1.date :=
    ledgerKey_ne_of_date_ne n.id t2.date t1.date (fun hh => hdate hh.symm)
  simp_all [should_send_notification, ledgerKey]

/-- Witness for the amended C2 on the sample rule and the two sample
Tuesdays. -/
theorem nonrepeat_once_per_date_witness :
    (should_send_notification bot0 ruleOnce tsTue1).1 = true ∧
    (should_send_notification
      (should_send_notification bot0 ruleOnce tsTue1).2 ruleOnce tsTue1).1 =
      false ∧
    (should_send_notification
      (should_send_notification bot0 ruleOnce tsTue1).2 ruleOnce tsTue2).1 =
      true :=
  nonrepeat_once_per_date bot0 ruleOnce tsTue1 tsTue2 rfl rfl rfl (by decide)
    rfl (by decide) (by simp [bot0]) (by decide) (by simp [bot0])

/-- Writing the same dict key twice keeps only the second value. -/
theorem dictSet_dictSet {α : Type} (d : List (String × α)) (k : String)
    (v v' : α) : dictSet (dictSet d k v) k v' = dictSet d k v' := by
  induction d with
  | nil => simp [dictSet]
  | cons p rest ih =>
      obtain ⟨k₀, v₀⟩ := p
      by_cases h₀ : k₀ = k <;> simp [dictSet, h₀, ih]

/-- Unfolded successor state of add: the list of the channel grows by the
one new rule (with the weekday default applied only to an omitted
argument) and one snapshot write happens. -/
theorem add_notification_state (b : NotificationBot) (cid : Nat)
    (ts msg : String) (w : Option (List Nat)) (rep : Bool)
    (fid ca : String) :
    (add_notification b cid ts msg w rep fid ca).1 = fid ∧
    (add_notification b cid ts msg w rep fid ca).2.notifications =
      dictSet b.notifications (channelKey cid)
        (get_notifications b cid ++
          [{ id := fid, time := ts, message := msg,
             weekdays := w.getD (List.range 7), «repeat» := rep,
             enabled := true, created_at := ca }]) ∧
    (add_notification b cid ts msg w rep fid ca).2.sent_notifications =
      b.sent_notifications ∧
    (add_notification b cid ts msg w rep fid ca).2.saves = b.saves + 1 := by
  unfold add_notification get_notifications
  cases hfind : dictFind b.notifications (channelKey cid) with
  | none =>
      refine ⟨rfl, ?_, rfl, rfl⟩
      simp [hfind, save_notifications, dictFind_dictSet_self, dictSet_dictSet]
      cases w <;> rfl
  | some l =>
      refine ⟨rfl, ?_, rfl, rfl⟩
      simp [hfind, save_notifications]
      cases w <;> rfl

/-- C4 counterexample: add called with an explicitly empty weekday list
stores the empty list verbatim — the stored rule does not receive the
seven-day default, so a stored rule with an empty weekday set exists. -/
theorem add_keeps_explicit_empty_weekdays :
    (get_notifications
        (add_notification bot0 2 "10:00" "ping" (some []) true "cccc3333"
          "2025-01-02T00:00:00+09:00").2 2).map Notification.weekdays =
      [[]] := by
  decide

/-- C4 amended: add returns the fresh id and appends to the channel one
enabled rule carrying the given fields; the weekday list defaults to all
seven indices 0..6 exactly when the argument is omitted, while an
explicitly given list — empty included — is stored verbatim. -/
theorem add_notification_spec (b : NotificationBot) (cid : Nat)
    (ts msg : String) (w : Option (List Nat)) (rep : Bool)
    (fid ca : String) :
    (add_notification b cid ts msg w rep fid ca).1 = fid ∧
    get_notifications (add_notification b cid ts msg w rep fid ca).2 cid =
      get_notifications b cid ++
        [{ id := fid, time := ts, message := msg,
           weekdays := w.getD (List.range 7), «repeat» := rep,
           enabled := true, created_at := ca }] := by
  obtain ⟨h1, h2, -, -⟩ := add_notification_state b cid ts msg w rep fid ca
  refine ⟨h1, ?_⟩
  simp [get_notifications, h2, dictFind_dictSet_self]

/-- A channel whose rule list is nonempty is really present in the dict. -/
theorem get_notifications_eq_some (b : NotificationBot) (cid : Nat)
    (l1 : List Notification) (r : Notification) (l2 : List Notification)
    (hl : get_notifications b cid = l1 ++ r :: l2) :
    dictFind b.notifications (channelKey cid) = some (l1 ++ r :: l2) := by
  unfold get_notifications at hl
  cases hfind : dictFind b.notifications (channelKey cid) with
  | none =>
      rw [hfind] at hl
      simp at hl
  | some l =>
      rw [hfind] at hl
      simp at hl
      exact congrArg some hl

/-- Successor state of remove on a hit: the first rule carrying the id is
popped, the ledger is untouched, and one snapshot write happens. -/
theorem remove_notification_found (b : NotificationBot) (cid : Nat)
    (nid : String) (l1 : List Notification) (r : Notification)
    (l2 : List Notification) (hl : get_notifications b cid = l1 ++ r :: l2)
    (hr : r.id = nid) (hfirst : nid ∉ l1.map Notification.id) :
    (remove_notification b cid nid).1 = some r ∧
    (remove_notification b cid nid).2.notifications =
      dictSet b.notifications (channelKey cid) (l1 ++ l2) ∧
    (remove_notification b cid nid).2.sent_notifications =
      b.sent_notifications ∧
    (remove_notification b cid nid).2.saves = b.saves + 1 := by
  have hfind := get_notifications_eq_some b cid l1 r l2 hl
  simp only [remove_notification, hfind,
    removeFirst_first_match l1 r l2 nid hr hfirst]
  simp [save_notifications]

/-- Successor state of toggle on a hit: the first rule carrying the id has
its flag flipped in place, the ledger is untouched, and one snapshot write
happens. -/
theorem toggle_notification_found (b : NotificationBot) (cid : Nat)
    (nid : String) (l1 : List Notification) (r : Notification)
    (l2 : List Notification) (hl : get_notifications b cid = l1 ++ r :: l2)
    (hr : r.id = nid) (hfirst : nid ∉ l1.map Notification.id) :
    (toggle_notification b cid nid).1 = some (!r.enabled) ∧
    (toggle_notification b cid nid).2.notifications =
      dictSet b.notifications (channelKey cid)
        (l1 ++ { r with enabled := !r.enabled } :: l2) ∧
    (toggle_notification b cid nid).2.sent_notifications =
      b.sent_notifications ∧
    (toggle_notification b cid nid).2.saves = b.saves + 1 := by
  have hfind := get_notifications_eq_some b cid l1 r l2 hl
  simp only [toggle_notification, hfind,
    toggleFirst_first_match l1 r l2 nid hr hfirst]
  simp [save_notifications]

/-- C5: remove linearly searches the channel by id — an absent id (an
unknown channel included) yields none with the whole state unchanged; a
hit returns the first rule with the id, the channel loses exactly that
occurrence, and one snapshot write happens; adding a rule under a fresh
id and removing that id restores the original channel list, which hence
does not contain the id. -/
theorem remove_notification_spec (b : NotificationBot) (cid : Nat)
    (nid ts msg : String) (w : Option (List Nat)) (rep : Bool)
    (fid ca : String)
    (hfid : fid ∉ (get_notifications b cid).map Notification.id) :
    (nid ∉ (get_notifications b cid).map Notification.id →
      remove_notification b cid nid = (none, b)) ∧
    (∀ l1 r l2, get_notifications b cid = l1 ++ r :: l2 → r.id = nid →
      nid ∉ l1.map Notification.id →
      (remove_notification b cid nid).1 = some r ∧
      get_notifications (remove_notification b cid nid).2 cid = l1 ++ l2 ∧
      (remove_notification b cid nid).2.saves = b.saves + 1) ∧
    get_notifications
      (remove_notification
        (add_notification b cid ts msg w rep fid ca).2 cid fid).2 cid =
      get_notifications b cid ∧
    fid ∉ (get_notifications
      (remove_notification
        (add_notification b cid ts msg w rep fid ca).2 cid fid).2
        cid).map Notification.id := by
  obtain ⟨ha1, ha2, ha3, ha4⟩ := add_notification_state b cid ts msg w rep fid ca
  have hget1 : get_notifications
      (add_notification b cid ts msg w rep fid ca).2 cid =
      get_notifications b cid ++
        [{ id := fid, time := ts, message := msg,
           weekdays := w.getD (List.range 7), «repeat» := rep,
           enabled := true, created_at := ca }] := by
    simp [get_notifications, ha2, dictFind_dictSet_self]
  obtain ⟨hr1, hr2, hr3, hr4⟩ :=
    remove_notification_found
      (add_notification b cid ts msg w rep fid ca).2 cid fid
      (get_notifications b cid)
      { id := fid, time := ts, message := msg,
        weekdays := w.getD (List.range 7), «repeat» := rep,
        enabled := true, created_at := ca }
      [] hget1 rfl hfid
  have hback : get_notifications
      (remove_notification
        (add_notification b cid ts msg w rep fid ca).2 cid fid).2 cid =
      get_notifications b cid := by
    rw [get_notifications, hr2, ha2, dictSet_dictSet,
      dictFind_dictSet_self]
    simp
  refine ⟨?_, ?_, hback, by rw [hback]; exact hfid⟩
  · intro hnid
    cases hfind : dictFind b.notifications (channelKey cid) with
    | none => simp only [remove_notification, hfind]
    | some l =>
        have hn : nid ∉ l.map Notification.id := by
          have hleq : get_notifications b cid = l := by
            simp [get_notifications, hfind]
          rw [hleq] at hnid
          exact hnid
        simp only [remove_notification, hfind, removeFirst_not_mem l nid hn]
  · intro l1 r l2 hl hr hfirst
    obtain ⟨h1, h2, h3, h4⟩ :=
      remove_notification_found b cid nid l1 r l2 hl hr hfirst
    exact ⟨h1, by simp [get_notifications, h2, dictFind_dictSet_self], h4⟩

/-- Witness for C5: removing an unknown id from the sample bot changes
nothing and reports none. -/
theorem remove_notification_spec_witness :
    remove_notification bot0 1 "zzzz9999" = (none, bot0) :=
  (remove_notification_spec bot0 1 "zzzz9999" "10:00" "ping" none true
      "cccc3333" "2025-01-02T00:00:00+09:00" (by decide)).1 (by decide)

/-- C6: toggling an existing rule returns the flipped flag of the first
rule carrying the id and flips exactly that rule in place; toggling the
same id twice restores the original rule list, the notifications mapping
and the ledger. -/
theorem toggle_notification_spec (b : NotificationBot) (cid : Nat)
    (nid : String) (l1 : List Notification) (r : Notification)
    (l2 : List Notification) (hl : get_notifications b cid = l1 ++ r :: l2)
    (hr : r.id = nid) (hfirst : nid ∉ l1.map Notification.id) :
    (toggle_notification b cid nid).1 = some (!r.enabled) ∧
    get_notifications (toggle_notification b cid nid).2 cid =
      l1 ++ { r with enabled := !r.enabled } :: l2 ∧
    (toggle_notification
      (toggle_notification b cid nid).2 cid nid).1 = some r.enabled ∧
    (toggle_notification
      (toggle_notification b cid nid).2 cid nid).2.notifications =
      b.notifications ∧
    (toggle_notification
      (toggle_notification b cid nid).2 cid nid).2.sent_notifications =
      b.sent_notifications := by
  have hfind := get_notifications_eq_some b cid l1 r l2 hl
  obtain ⟨h1, h2, h3, h4⟩ :=
    toggle_notification_found b cid nid l1 r l2 hl hr hfirst
  have hget1 : get_notifications (toggle_notification b cid nid).2 cid =
      l1 ++ { r with enabled := !r.enabled } :: l2 := by
    simp [get_notifications, h2, dictFind_dictSet_self]
  obtain ⟨g1, g2, g3, g4⟩ :=
    toggle_notification_found (toggle_notification b cid nid).2 cid nid
      l1 { r with enabled := !r.enabled } l2 hget1 hr hfirst
  refine ⟨h1, hget1, ?_, ?_, ?_⟩
  · rw [g1]
    simp
  · rw [g2, h2, dictSet_dictSet]
    have hflip : ({ r with enabled := !(!r.enabled) } : Notification) = r := by
      cases r
      simp
    simp only [hflip]
    exact dictSet_self _ _ _ hfind
  · rw [g3, h3]

/-- Witness for C6 on the sample bot, toggling the non-repeating rule
twice. -/
theorem toggle_notification_spec_witness :
    (toggle_notification bot0 1 "bbbb2222").1 = some (!ruleOnce.enabled) ∧
    get_notifications (toggle_notification bot0 1 "bbbb2222").2 1 =
      [ruleRep] ++ { ruleOnce with enabled := !ruleOnce.enabled } :: [] ∧
    (toggle_notification
      (toggle_notification bot0 1 "bbbb2222").2 1 "bbbb2222").1 =
      some ruleOnce.enabled ∧
    (toggle_notification
      (toggle_notification bot0 1 "bbbb2222").2 1 "bbbb2222").2.notifications =
      bot0.notifications ∧
    (toggle_notification
      (toggle_notification bot0 1 "bbbb2222").2 1 "bbbb2222").2.sent_notifications =
      bot0.sent_notifications :=
  toggle_notification_spec bot0 1 "bbbb2222" [ruleRep] ruleOnce [] rfl rfl
    (by decide)

/-- Sample rule sharing its id with `ruleDup2`. -/
def ruleDup1 : Notification :=
  { id := "eeee5555", time := "08:00", message := "first",
    weekdays := [0], «repeat» := true, enabled := true,
    created_at := "2025-01-01T00:00:00+09:00" }

/-- Sample rule sharing its id with `ruleDup1`. -/
def ruleDup2 : Notification :=
  { id := "eeee5555", time := "20:00", message := "second",
    weekdays := [4], «repeat» := true, enabled := false,
    created_at := "2025-01-03T00:00:00+09:00" }

/-- Sample bot with two rules sharing one id in channel 1 and a second
channel. -/
def botDup : NotificationBot :=
  { notifications := [("1", [ruleDup1, ruleDup2]), ("2", [ruleRep])],
    sent_notifications := [], saves := 0 }

/-- C9: remove pops only the first rule whose id matches — the rules
before it and after it survive with value and order intact, a later rule
sharing the id survives, every other channel key keeps its exact list,
and the ledger is untouched. -/
theorem remove_frame (b : NotificationBot) (cid : Nat) (nid : String)
    (l1 : List Notification) (r : Notification) (l2 : List Notification)
    (hl : get_notifications b cid = l1 ++ r :: l2) (hr : r.id = nid)
    (hfirst : nid ∉ l1.map Notification.id) :
    (remove_notification b cid nid).1 = some r ∧
    get_notifications (remove_notification b cid nid).2 cid = l1 ++ l2 ∧
    (∀ ck, ck ≠ channelKey cid →
      dictFind (remove_notification b cid nid).2.notifications ck =
        dictFind b.notifications ck) ∧
    (∀ r2, r2 ∈ l2 →
      r2 ∈ get_notifications (remove_notification b cid nid).2 cid) ∧
    (remove_notification b cid nid).2.sent_notifications =
      b.sent_notifications := by
  obtain ⟨h1, h2, h3, h4⟩ :=
    remove_notification_found b cid nid l1 r l2 hl hr hfirst
  have hch : get_notifications (remove_notification b cid nid).2 cid =
      l1 ++ l2 := by
    simp [get_notifications, h2, dictFind_dictSet_self]
  refine ⟨h1, hch, ?_, ?_, h3⟩
  · intro ck hck
    rw [h2, dictFind_dictSet_ne _ _ _ _ hck]
  · intro r2 hr2
    rw [hch]
    exact List.mem_append_right _ hr2

/-- Witness for C9 on the duplicate-id sample: the first duplicate is
popped, the second survives, and channel 2 is untouched. -/
theorem remove_frame_witness :
    (remove_notification botDup 1 "eeee5555").1 = some ruleDup1 ∧
    get_notifications (remove_notification botDup 1 "eeee5555").2 1 =
      [] ++ [ruleDup2] ∧
    dictFind (remove_notification botDup 1 "eeee5555").2.notifications "2" =
      dictFind botDup.notifications "2" ∧
    ruleDup2 ∈ get_notifications (remove_notification botDup 1 "eeee5555").2 1 :=
  have h := remove_frame botDup 1 "eeee5555" [] ruleDup1 [ruleDup2] rfl rfl
    (by decide)
  ⟨h.1, h.2.1, h.2.2.1 "2" (by decide),
    h.2.2.2.1 ruleDup2 (List.mem_singleton.mpr rfl)⟩

/-- C10: toggle with an unknown channel or an id absent from the channel
list returns none and the successor state is the old state itself — no
rule, no channel list, no ledger entry changes, and no snapshot write. -/
theorem toggle_not_found_atomic (b : NotificationBot) (cid : Nat)
    (nid : String)
    (h : nid ∉ (get_notifications b cid).map Notification.id) :
    toggle_notification b cid nid = (none, b) := by
  cases hfind : dictFind b.notifications (channelKey cid) with
  | none => simp only [toggle_notification, hfind]
  | some l =>
      have hn : nid ∉ l.map Notification.id := by
        have hleq : get_notifications b cid = l := by
          simp [get_notifications, hfind]
        rw [hleq] at h
        exact h
      simp only [toggle_notification, hfind, toggleFirst_not_mem l nid hn]

/-- Witness for C10: an unknown id on the sample bot leaves the state
untouched. -/
theorem toggle_not_found_atomic_witness :
    toggle_notification bot0 1 "zzzz9999" = (none, bot0) :=
  toggle_not_found_atomic bot0 1 "zzzz9999" (by decide)

end Bot
